import Mathlib

/-!
Verification development for the tactical-motif classification engine of
lichess-puzzler (src/tagger/cook.py).

The chess rules engine is an external collaborator (spec section 6): a board is
embedded as a record of the query capabilities the detectors consume.  The
puzzle/ply sequence model and the tactical predicate library (model.py and
util.py, which are not part of the tagger source tree here) are modelled from
the spec, sections 3 and 4.1-4.3.  Every detector and the classifier driver
`cook` are translated directly from src/tagger/cook.py.
-/

namespace Cook

/-- Tags are string identifiers (spec section 3, MotifTag). -/
abbrev TagKind := String

/-- Piece type constants, as in the chess library: PAWN=1 .. KING=6. -/
def PAWN : Nat := 1
/-- Knight piece type constant. -/
def KNIGHT : Nat := 2
/-- Bishop piece type constant. -/
def BISHOP : Nat := 3
/-- Rook piece type constant. -/
def ROOK : Nat := 4
/-- Queen piece type constant. -/
def QUEEN : Nat := 5
/-- King piece type constant. -/
def KING : Nat := 6

/-- A piece: a type (1..6) and a color (true = White). -/
structure Piece where
  pieceType : Nat
  color : Bool
deriving DecidableEq, Repr

/-- A move: from-square, to-square (0..63), optional promotion piece type
(spec section 3, Ply/Node attributes). -/
structure Move where
  fromSq : Nat
  toSq : Nat
  promotion : Option Nat
deriving DecidableEq, Repr

/-- Modelled from the spec: the Board Query Facade (section 6), the external
rules engine consumed by the detectors.  Each field is one of the query
capabilities the spec lists (piece at square, attackers, attacks, checkers,
checkmate test, pin ray, king square, legal-move count) together with the
tactical predicates that section 4.3 says are delegated to the engine and
treated as opaque (capture test, hanging test, trapped test, bad-spot test).
`pinRay c s` is `none` when the piece is unpinned (the engine's "all squares"
answer) and `some ray` with the permitted ray otherwise.  Square-set results
are lists of squares in ascending order; popping a set takes its head. -/
structure Board where
  pieceAt : Nat → Option Piece
  turn : Bool
  checkers : List Nat
  isCheckmate : Bool
  attackers : Bool → Nat → List Nat
  attacks : Nat → List Nat
  pinRay : Bool → Nat → Option (List Nat)
  king : Bool → Nat
  legalMoveCount : Nat
  isCapture : Move → Bool
  isHanging : Piece → Nat → Bool
  isTrapped : Nat → Bool
  isInBadSpot : Nat → Bool

/-- File (0..7) of a square, as in the chess library. -/
def squareFile (s : Nat) : Nat := s % 8

/-- Rank (0..7) of a square, as in the chess library. -/
def squareRank (s : Nat) : Nat := s / 8

/-- Vertical mirror of a square (a1 <-> a8), as in the chess library. -/
def mirrorSq (s : Nat) : Nat := s ^^^ 56

/-- Modelled from the spec: mirroring a board (used by the exposed-king
detector) flips it vertically and swaps the piece colors; every facade query
commutes with the flip. -/
def Board.mirror (b : Board) : Board where
  pieceAt := fun sq => (b.pieceAt (mirrorSq sq)).map (fun pc => ⟨pc.pieceType, !pc.color⟩)
  turn := !b.turn
  checkers := b.checkers.map mirrorSq
  isCheckmate := b.isCheckmate
  attackers := fun c sq => (b.attackers (!c) (mirrorSq sq)).map mirrorSq
  attacks := fun sq => (b.attacks (mirrorSq sq)).map mirrorSq
  pinRay := fun c sq => (b.pinRay (!c) (mirrorSq sq)).map (List.map mirrorSq)
  king := fun c => mirrorSq (b.king (!c))
  legalMoveCount := b.legalMoveCount
  isCapture := fun m => b.isCapture ⟨mirrorSq m.fromSq, mirrorSq m.toSq, m.promotion⟩
  isHanging := fun pc sq => b.isHanging ⟨pc.pieceType, !pc.color⟩ (mirrorSq sq)
  isTrapped := fun sq => b.isTrapped (mirrorSq sq)
  isInBadSpot := fun sq => b.isInBadSpot (mirrorSq sq)

/-- Modelled from the spec: the squares strictly between two aligned squares
(section 6, `between`); empty when the squares are not on a common rank, file
or diagonal. -/
def between (a b : Nat) : List Nat :=
  let fa : Int := (a : Int) % 8
  let ra : Int := (a : Int) / 8
  let fb : Int := (b : Int) % 8
  let rb : Int := (b : Int) / 8
  let df : Int := fb - fa
  let dr : Int := rb - ra
  if df = 0 ∧ dr = 0 then []
  else if df = 0 ∨ dr = 0 ∨ df.natAbs = dr.natAbs then
    let n := max df.natAbs dr.natAbs
    let sf : Int := if df > 0 then 1 else if df < 0 then -1 else 0
    let sr : Int := if dr > 0 then 1 else if dr < 0 then -1 else 0
    (List.range (n - 1)).map (fun k =>
      Int.toNat ((ra + sr * ((k : Int) + 1)) * 8 + (fa + sf * ((k : Int) + 1))))
  else []

/-- Modelled from the spec: one ply of the mainline (section 3): the move
played and the resulting board position. -/
structure Node where
  move : Move
  board : Board

/-- Modelled from the spec: a puzzle (section 3): the board of the game root
(the position before the mainline's first move), the mainline plies in order,
and the point-of-view color.  Parent access is index arithmetic over the
mainline, as the spec's design notes prescribe (section 9). -/
structure Puzzle where
  root : Board
  mainline : List Node
  pov : Bool

/-- A default node, used only to totalize in-range list indexing. -/
def defaultNode : Node :=
  ⟨⟨0, 0, none⟩,
   { pieceAt := fun _ => none, turn := true, checkers := [], isCheckmate := false,
     attackers := fun _ _ => [], attacks := fun _ => [], pinRay := fun _ _ => none,
     king := fun _ => 0, legalMoveCount := 0, isCapture := fun _ => false,
     isHanging := fun _ _ => false, isTrapped := fun _ => false,
     isInBadSpot := fun _ => false }⟩

/-- The mainline ply at index `i` (all detector loops stay in range). -/
def nodeAt (p : Puzzle) (i : Nat) : Node := p.mainline.getD i defaultNode

/-- The board of the parent of ply `i`: ply `i-1`'s board, or the game root's
board for ply 0 (`node.parent.board()` in the source). -/
def parentBoardAt (p : Puzzle) (i : Nat) : Board :=
  if i = 0 then p.root else (nodeAt p (i - 1)).board

/-- The board of the final position (`puzzle.game.end().board()` in the
source): the last mainline ply's board. -/
def finalBoard (p : Puzzle) : Board :=
  match p.mainline.getLast? with
  | some n => n.board
  | none => p.root

/-- The indices of pov's own plies: `mainline[1::2]` in the source. -/
def povIdx (p : Puzzle) : List Nat :=
  (List.range p.mainline.length).filter (fun i => i % 2 == 1)

/-- Every second element of a list starting from the head (`l[0::2]`). -/
def slice02 : List α → List α
  | [] => []
  | [a] => [a]
  | a :: _ :: t => a :: slice02 t

/-- Every second element of a list starting from index 1 (`l[1::2]`). -/
def slice12 : List α → List α
  | [] => []
  | _ :: t => slice02 t

end Cook

namespace Cook

/-- Modelled from the spec: the piece value table (section 4.3): pawn 1,
knight 3, bishop 3, rook 5, queen 9; comparisons involving the king use the
sentinel 10, greater than a queen. -/
def values (t : Nat) : Nat :=
  if t = PAWN then 1
  else if t = KNIGHT then 3
  else if t = BISHOP then 3
  else if t = ROOK then 5
  else if t = QUEEN then 9
  else if t = KING then 10
  else 0

/-- Modelled from the spec: the material value of a piece type for material
accounting (section 4.2): pawn 1, knight/bishop 3, rook 5, queen 9, king
excluded. -/
def matValue (t : Nat) : Int :=
  if t = PAWN then 1
  else if t = KNIGHT then 3
  else if t = BISHOP then 3
  else if t = ROOK then 5
  else if t = QUEEN then 9
  else 0

/-- Modelled from the spec: `material_diff(board, pov)` (section 4.2): the sum
of pov's piece values minus the opponent's, over one static position. -/
def material_diff (b : Board) (pov : Bool) : Int :=
  (List.range 64).foldl
    (fun acc sq =>
      match b.pieceAt sq with
      | some pc => if pc.color == pov then acc + matValue pc.pieceType else acc - matValue pc.pieceType
      | none => acc) 0

/-- Modelled from the spec: `moved_piece_type(node)` (section 4.3): the type of
the piece now occupying the move's destination (post-move, handling
promotions). -/
def moved_piece_type (n : Node) : Option Nat :=
  (n.board.pieceAt n.move.toSq).map Piece.pieceType

/-- Modelled from the spec: `util.is_capture(node)`: whether ply `i`'s move
captured, asked of the rules engine on the parent position. -/
def is_capture (p : Puzzle) (i : Nat) : Bool :=
  (parentBoardAt p i).isCapture (nodeAt p i).move

/-- Modelled from the spec: `ray_piece_types` (section 4.3): bishop, rook,
queen. -/
def ray_piece_types : List Nat := [BISHOP, ROOK, QUEEN]

/-- Modelled from the spec: `attacked_opponent_squares(board, from, pov)`
(section 4.3): the (piece, square) pairs of the side opposing pov attacked
from `from`. -/
def attacked_opponent_squares (b : Board) (fromSq : Nat) (pov : Bool) : List (Piece × Nat) :=
  (b.attacks fromSq).filterMap (fun sq =>
    match b.pieceAt sq with
    | some pc => if pc.color != pov then some (pc, sq) else none
    | none => none)

/-- Modelled from the spec: `attacked_opponent_pieces`, the pieces of
`attacked_opponent_squares`. -/
def attacked_opponent_pieces (b : Board) (fromSq : Nat) (pov : Bool) : List Piece :=
  (attacked_opponent_squares b fromSq pov).map Prod.fst

/-- Modelled from the spec: `is_advanced_pawn_move(node)` (section 4.3): a
promotion, or a pawn landing in the opponent's last three ranks relative to
the mover's color. -/
def is_advanced_pawn_move (n : Node) : Bool :=
  n.move.promotion.isSome ||
    (match n.board.pieceAt n.move.toSq with
     | some pc => pc.pieceType == PAWN &&
         (if pc.color then decide (4 < squareRank n.move.toSq) else decide (squareRank n.move.toSq < 3))
     | none => false)

end Cook

namespace Cook

/-- Detector `advanced_pawn` (cook.py): any mainline move is an advanced pawn
move. -/
def advanced_pawn (p : Puzzle) : Bool :=
  p.mainline.any is_advanced_pawn_move

/-- Detector `double_check` (cook.py): some pov move leaves more than one
checker. -/
def double_check (p : Puzzle) : Bool :=
  (povIdx p).any (fun i => decide (1 < (nodeAt p i).board.checkers.length))

/-- Detector `sacrifice` (cook.py): pov's material balance, compared to
`diffs[0]`, drops by at least 2 at some pov ply after pov's first move. -/
def sacrifice (p : Puzzle) : Bool :=
  let diffs := p.mainline.map (fun n => material_diff n.board p.pov)
  let initial := diffs.headD 0
  ((slice12 diffs).drop 1).any (fun d => decide (d - initial ≤ -2))

/-- The number of attacked opponent pieces counted by the fork detector at pov
ply `i`: non-pawn pieces that are a king, higher-valued than the moved piece,
or hanging. -/
def forkCount (p : Puzzle) (i : Nat) : Nat :=
  let node := nodeAt p i
  let board := node.board
  ((attacked_opponent_squares board node.move.toSq p.pov).filter (fun ps =>
      ps.1.pieceType != PAWN &&
        (ps.1.pieceType == KING ||
         decide (values ((moved_piece_type node).getD 0) < values ps.1.pieceType) ||
         board.isHanging ps.1 ps.2))).length

/-- Loop of the fork detector over pov-ply indices, with the source's early
`return False` on a checkmate position. -/
def forkGo (p : Puzzle) : List Nat → Bool
  | [] => false
  | i :: rest =>
    if moved_piece_type (nodeAt p i) != some KING then
      if (nodeAt p i).board.isCheckmate then false
      else if decide (1 < forkCount p i) then true
      else forkGo p rest
    else forkGo p rest

/-- Detector `fork` (cook.py): scans `mainline[1::2][:-1]`. -/
def fork (p : Puzzle) : Bool := forkGo p ((povIdx p).dropLast)

/-- Detector `hanging_piece` (cook.py).  The source indexes `mainline[0]`,
`mainline[1]` and, whenever the mainline has at least 3 plies, `mainline[3]`;
an out-of-range access is an IndexError, embedded as `none`. -/
def hanging_piece (p : Puzzle) : Option Bool :=
  match p.mainline.get? 0, p.mainline.get? 1 with
  | some node0, some node1 =>
    if is_capture p 0 || !node0.board.checkers.isEmpty then some false
    else
      let toSquare := node1.move.toSq
      match node0.board.pieceAt toSquare with
      | some captured =>
        if captured.pieceType != PAWN && node0.board.isHanging captured toSquare then
          if p.mainline.length < 3 then some true
          else
            match p.mainline.get? 3 with
            | some node3 =>
              some (decide (material_diff node1.board p.pov ≤ material_diff node3.board p.pov))
            | none => none
        else some false
      | none => some false
  | _, _ => none

/-- One step of the trapped-piece detector at pov ply `i`. -/
def trappedCond (p : Puzzle) (i : Nat) : Bool :=
  let node := nodeAt p i
  let square := node.move.toSq
  match (parentBoardAt p i).pieceAt square with
  | some captured =>
    if captured.pieceType != PAWN then
      let prev := nodeAt p (i - 1)
      let square2 := if prev.move.toSq == square then prev.move.fromSq else square
      (nodeAt p (i - 2)).board.isTrapped square2
    else false
  | none => false

/-- Detector `trapped_piece` (cook.py): scans `mainline[1::2][1:]`. -/
def trapped_piece (p : Puzzle) : Bool := ((povIdx p).drop 1).any (trappedCond p)

/-- Detector `discovered_check` (cook.py): some pov move gives check with a
piece other than the one that just moved. -/
def discovered_check (p : Puzzle) : Bool :=
  (povIdx p).any (fun i =>
    let n := nodeAt p i
    !n.board.checkers.isEmpty && !(n.board.checkers.contains n.move.toSq))

/-- Loop of the discovered-attack detector, with the source's early
`return False` when the capture lands on the preceding opponent move's
destination. -/
def daGo (p : Puzzle) : List Nat → Bool
  | [] => false
  | i :: rest =>
    let node := nodeAt p i
    if is_capture p i then
      let btw := between node.move.fromSq node.move.toSq
      if (nodeAt p (i - 1)).move.toSq == node.move.toSq then false
      else
        let prev := nodeAt p (i - 2)
        if btw.contains prev.move.fromSq && node.move.toSq != prev.move.toSq then true
        else daGo p rest
    else daGo p rest

/-- Detector `discovered_attack` (cook.py). -/
def discovered_attack (p : Puzzle) : Bool :=
  discovered_check p || daGo p ((povIdx p).drop 1)

/-- Loop of the quiet-move detector over all mainline indices; the first index
that passes the pov-turn, not-last, no-check and no-capture guards decides the
result. -/
def quietGo (p : Puzzle) : List Nat → Bool
  | [] => false
  | i :: rest =>
    let node := nodeAt p i
    if node.board.turn != p.pov && i != p.mainline.length - 1 then
      if node.board.checkers.isEmpty && (parentBoardAt p i).checkers.isEmpty then
        if !(is_capture p i) then
          (attacked_opponent_pieces node.board node.move.toSq p.pov).isEmpty
        else quietGo p rest
      else quietGo p rest
    else quietGo p rest

/-- Detector `quiet_move` (cook.py). -/
def quiet_move (p : Puzzle) : Bool := quietGo p (List.range p.mainline.length)

/-- Detector `defensive_move` (cook.py): the puzzle's last move, with at least
3 legal replies available, gives no check, captures nothing, attacks nothing
and is no advanced pawn push. -/
def defensive_move (p : Puzzle) : Bool :=
  if (nodeAt p (p.mainline.length - 2)).board.legalMoveCount < 3 then false
  else
    let node := nodeAt p (p.mainline.length - 1)
    if !node.board.checkers.isEmpty || is_capture p (p.mainline.length - 1) then false
    else if !(attacked_opponent_pieces node.board node.move.toSq p.pov).isEmpty then false
    else !(is_advanced_pawn_move node)

/-- One step of the attraction detector at mainline index `i`. -/
def attractionCond (p : Puzzle) (i : Nat) : Bool :=
  let node := nodeAt p i
  if node.board.turn == p.pov then false
  else
    let firstMoveTo := node.move.toSq
    match p.mainline.get? (i + 1) with
    | some reply =>
      if reply.move.toSq == firstMoveTo then
        match moved_piece_type reply with
        | some attracted =>
          if attracted == KING || attracted == QUEEN || attracted == ROOK then
            let attractedTo := reply.move.toSq
            match p.mainline.get? (i + 2) with
            | some nextN =>
              if (nextN.board.attackers p.pov attractedTo).contains nextN.move.toSq then
                if attracted == KING then true
                else
                  match p.mainline.get? (i + 4) with
                  | some n3 => n3.move.toSq == attractedTo
                  | none => false
              else false
            | none => false
          else false
        | none => false
      else false
    | none => false

/-- Detector `attraction` (cook.py): scans `mainline[1:]`. -/
def attraction (p : Puzzle) : Bool :=
  ((List.range p.mainline.length).drop 1).any (attractionCond p)

/-- One step of the deflection detector at pov ply `i`.  The comparison
`values[prev_player_capture.piece_type] < util.moved_piece_type(...)` is the
source's own comparison of a piece value against a raw piece type. -/
def deflectionCond (p : Puzzle) (i : Nat) : Bool :=
  let node := nodeAt p i
  let capture := (parentBoardAt p i).pieceAt node.move.toSq
  if capture.isSome || node.move.promotion.isSome then
    let piece := moved_piece_type node
    if (match capture with
        | some c => piece != some KING && decide (values (piece.getD 0) < values c.pieceType)
        | none => false) then false
    else
      let square := node.move.toSq
      let prevOpMove := (nodeAt p (i - 1)).move
      let prevPlayerMove := (nodeAt p (i - 2)).move
      let prevPlayerCapture := (nodeAt p (i - 3)).board.pieceAt prevPlayerMove.toSq
      (match prevPlayerCapture with
       | some c => decide (values c.pieceType < (moved_piece_type (nodeAt p (i - 2))).getD 0)
       | none => true) &&
      square != prevOpMove.toSq && square != prevPlayerMove.toSq &&
      prevOpMove.toSq == prevPlayerMove.toSq &&
      ((nodeAt p (i - 2)).board.attacks prevOpMove.fromSq).contains square &&
      !(((nodeAt p (i - 1)).board.attacks prevOpMove.toSq).contains square)
  else false

/-- Detector `deflection` (cook.py): scans `mainline[1::2][1:]`. -/
def deflection (p : Puzzle) : Bool := ((povIdx p).drop 1).any (deflectionCond p)

/-- Detector `exposed_king` (cook.py): evaluated on the mirrored board when pov
is Black; the opponent king sits on rank at least 5 without a pawn shield and
some intermediate pov move gives check. -/
def exposed_king (p : Puzzle) : Bool :=
  let board := if p.pov then (nodeAt p 0).board else (nodeAt p 0).board.mirror
  let king := board.king false
  if squareRank king < 5 then false
  else
    let squares :=
      [king - 8] ++
      (if 0 < squareFile king then [king - 1, king - 9] else []) ++
      (if squareFile king < 7 then [king + 1, king - 7] else [])
    if squares.any (fun sq => board.pieceAt sq == some ⟨PAWN, false⟩) then false
    else (((povIdx p).drop 1).dropLast).any (fun i => !(nodeAt p i).board.checkers.isEmpty)

/-- The skewer detector's value function: kings count as 10. -/
def skewerValue (t : Nat) : Nat := if t = KING then 10 else values t

/-- One step of the skewer detector at pov ply `i`. -/
def skewerCond (p : Puzzle) (i : Nat) : Bool :=
  let node := nodeAt p i
  let prev := nodeAt p (i - 1)
  match (parentBoardAt p i).pieceAt node.move.toSq with
  | some capture =>
    if ray_piece_types.contains ((moved_piece_type node).getD 0) && !node.board.isCheckmate then
      let btw := between node.move.fromSq node.move.toSq
      let opMove := prev.move
      if opMove.toSq == node.move.toSq || !(btw.contains opMove.fromSq) then false
      else decide (skewerValue capture.pieceType < skewerValue ((moved_piece_type prev).getD 0))
    else false
  | none => false

/-- Detector `skewer` (cook.py): scans `mainline[1::2][1:]`. -/
def skewer (p : Puzzle) : Bool := ((povIdx p).drop 1).any (skewerCond p)

/-- One step of the self-interference detector at pov ply `i`: the captured
piece's sole defender is a ray piece whose line was blocked by the opponent's
own previous move. -/
def self_interferenceCond (p : Puzzle) (i : Nat) : Bool :=
  let node := nodeAt p i
  let prevBoard := parentBoardAt p i
  let square := node.move.toSq
  match prevBoard.pieceAt square with
  | some capture =>
    if prevBoard.isHanging capture square then
      let initBoard := (nodeAt p (i - 2)).board
      match (initBoard.attackers capture.color square).head? with
      | some defender =>
        (match initBoard.pieceAt defender with
         | some dp => ray_piece_types.contains dp.pieceType
         | none => false) &&
        (between square defender).contains (nodeAt p (i - 1)).move.toSq
      | none => false
    else false
  | none => false

/-- Detector `self_interference` (cook.py): scans `mainline[1::2][1:]`. -/
def self_interference (p : Puzzle) : Bool :=
  ((povIdx p).drop 1).any (self_interferenceCond p)

/-- One step of the interference detector at pov ply `i`: as
self-interference, but the blocking piece was moved there by pov two plies
earlier. -/
def interferenceCond (p : Puzzle) (i : Nat) : Bool :=
  let node := nodeAt p i
  let prevBoard := parentBoardAt p i
  let square := node.move.toSq
  match prevBoard.pieceAt square with
  | some capture =>
    if square != (nodeAt p (i - 1)).move.toSq && prevBoard.isHanging capture square then
      let initBoard := (nodeAt p (i - 3)).board
      match (initBoard.attackers capture.color square).head? with
      | some defender =>
        (match initBoard.pieceAt defender with
         | some dp => ray_piece_types.contains dp.pieceType
         | none => false) &&
        (between square defender).contains (nodeAt p (i - 2)).move.toSq
      | none => false
    else false
  | none => false

/-- Detector `interference` (cook.py): scans `mainline[1::2][1:]`. -/
def interference (p : Puzzle) : Bool :=
  ((povIdx p).drop 1).any (interferenceCond p)

/-- The piece map of a board: all (square, piece) pairs. -/
def pieceMap (b : Board) : List (Nat × Piece) :=
  (List.range 64).filterMap (fun sq => (b.pieceAt sq).map (fun pc => (sq, pc)))

/-- One step of the pin detector at pov ply `i`: some pinned opponent piece
attacks, off its pin ray, a pov piece of higher value or a hanging pov
piece. -/
def pinCond (p : Puzzle) (i : Nat) : Bool :=
  let board := (nodeAt p i).board
  (pieceMap board).any (fun sp =>
    if sp.2.color == p.pov then false
    else
      match board.pinRay sp.2.color sp.1 with
      | none => false
      | some pinDir =>
        (board.attacks sp.1).any (fun attack =>
          match board.pieceAt attack with
          | some attacked =>
            attacked.color == p.pov && !(pinDir.contains attack) &&
            (decide (values sp.2.pieceType < values attacked.pieceType) ||
             board.isHanging attacked attack)
          | none => false))

/-- Detector `pin` (cook.py): scans `mainline[1::2][:-1]`. -/
def pin (p : Puzzle) : Bool := ((povIdx p).dropLast).any (pinCond p)

/-- Loop of the attacking-f2-f7 detector: the first pov capture landing on f2
or f7 decides the result (the source returns from inside the loop). -/
def f2f7Go (p : Puzzle) : List Nat → Bool
  | [] => false
  | i :: rest =>
    let node := nodeAt p i
    let square := node.move.toSq
    if ((parentBoardAt p i).pieceAt node.move.toSq).isSome && (square == 13 || square == 53) then
      match node.board.pieceAt (if square == 53 then 60 else 4) with
      | some king => king.pieceType == KING && king.color != p.pov
      | none => false
    else f2f7Go p rest

/-- Detector `attacking_f2_f7` (cook.py). -/
def attacking_f2_f7 (p : Puzzle) : Bool := f2f7Go p (povIdx p)

/-- One step of the clearance detector at pov ply `i`. -/
def clearanceCond (p : Puzzle) (i : Nat) : Bool :=
  let node := nodeAt p i
  let board := node.board
  if ((parentBoardAt p i).pieceAt node.move.toSq).isNone then
    match board.pieceAt node.move.toSq with
    | some pc =>
      if ray_piece_types.contains pc.pieceType then
        let prev := nodeAt p (i - 2)
        let prevMove := prev.move
        if prevMove.promotion.isNone && prevMove.toSq != node.move.fromSq &&
           prevMove.toSq != node.move.toSq && (parentBoardAt p i).checkers.isEmpty &&
           (board.checkers.isEmpty || moved_piece_type (nodeAt p (i - 1)) != some KING) then
          if prevMove.fromSq == node.move.toSq ||
             (between node.move.fromSq node.move.toSq).contains prevMove.fromSq then
            ((nodeAt p (i - 3)).board.pieceAt prevMove.toSq).isNone ||
              prev.board.isInBadSpot prevMove.toSq
          else false
        else false
      else false
    | none => false
  else false

/-- Detector `clearance` (cook.py): scans `mainline[1::2][1:]`. -/
def clearance (p : Puzzle) : Bool := ((povIdx p).drop 1).any (clearanceCond p)

/-- One step of the en-passant detector at pov ply `i`: a pawn move changing
file onto a previously empty destination square. -/
def epCond (p : Puzzle) (i : Nat) : Bool :=
  let node := nodeAt p i
  moved_piece_type node == some PAWN &&
  squareFile node.move.fromSq != squareFile node.move.toSq &&
  ((parentBoardAt p i).pieceAt node.move.toSq).isNone

/-- Detector `en_passant` (cook.py): scans `mainline[1::2]`. -/
def en_passant (p : Puzzle) : Bool := (povIdx p).any (epCond p)

/-- Detector `promotion` (cook.py): some pov move promotes. -/
def promotion (p : Puzzle) : Bool :=
  (povIdx p).any (fun i => (nodeAt p i).move.promotion.isSome)

/-- One step of the capturing-defender detector at pov ply `i`. -/
def capturing_defenderCond (p : Puzzle) (i : Nat) : Bool :=
  let node := nodeAt p i
  let board := node.board
  let capture := (parentBoardAt p i).pieceAt node.move.toSq
  let fire :=
    board.isCheckmate ||
      (match capture with
       | some c =>
         moved_piece_type node != some KING &&
         decide (values c.pieceType ≤ values ((moved_piece_type node).getD 0)) &&
         (parentBoardAt p i).isHanging c node.move.toSq
       | none => false)
  if fire then
    let prev := nodeAt p (i - 2)
    if prev.board.checkers.isEmpty && prev.move.toSq != node.move.fromSq then
      let initBoard := (nodeAt p (i - 3)).board
      let defenderSquare := prev.move.toSq
      match initBoard.pieceAt defenderSquare with
      | some defender =>
        (initBoard.attackers defender.color node.move.toSq).contains defenderSquare &&
        initBoard.checkers.isEmpty
      | none => false
    else false
  else false

/-- Detector `capturing_defender` (cook.py): scans `mainline[1::2][1:]`. -/
def capturing_defender (p : Puzzle) : Bool :=
  ((povIdx p).drop 1).any (capturing_defenderCond p)

/-- Detector `mate_in` (cook.py): when the final position is checkmate, tag by
`len(mainline) // 2`. -/
def mate_in (p : Puzzle) : Option TagKind :=
  if !(finalBoard p).isCheckmate then none
  else
    let movesToMate := p.mainline.length / 2
    if movesToMate = 1 then some "mateIn1"
    else if movesToMate = 2 then some "mateIn2"
    else if movesToMate = 3 then some "mateIn3"
    else if movesToMate = 4 then some "mateIn4"
    else some "mateIn5+"

/-- The length-category tag appended last by `cook`: 2 plies oneMove, 4 plies
short, at least 8 plies veryLong, otherwise long. -/
def lengthTagOf (p : Puzzle) : TagKind :=
  if p.mainline.length = 2 then "oneMove"
  else if p.mainline.length = 4 then "short"
  else if 8 ≤ p.mainline.length then "veryLong"
  else "long"

/-- The classifier driver `cook` (cook.py): every detector once, in the fixed
source order, the mate tag first and the length tag last.  `hanging_piece` can
raise (an out-of-range access); the error propagates, so `cook` is `none`
exactly when `hanging_piece` is. -/
def cook (p : Puzzle) : Option (List TagKind) :=
  match hanging_piece p with
  | none => none
  | some hp =>
    some
      ((mate_in p).toList ++
       (if attraction p then ["attraction"] else []) ++
       (if deflection p then ["deflection"] else []) ++
       (if advanced_pawn p then ["advancedPawn"] else []) ++
       (if double_check p then ["doubleCheck"] else []) ++
       (if quiet_move p then ["quietMove"] else []) ++
       (if defensive_move p then ["defensiveMove"] else []) ++
       (if sacrifice p then ["sacrifice"] else []) ++
       (if fork p then ["fork"] else []) ++
       (if hp then ["hangingPiece"] else []) ++
       (if trapped_piece p then ["trappedPiece"] else []) ++
       (if discovered_attack p then ["discoveredAttack"] else []) ++
       (if exposed_king p then ["exposedKing"] else []) ++
       (if skewer p then ["skewer"] else []) ++
       (if self_interference p || interference p then ["interference"] else []) ++
       (if pin p then ["pin"] else []) ++
       (if attacking_f2_f7 p then ["attackingF2F7"] else []) ++
       (if clearance p then ["clearance"] else []) ++
       (if en_passant p then ["enPassant"] else []) ++
       (if promotion p then ["promotion"] else []) ++
       (if capturing_defender p then ["capturingDefender"] else []) ++
       [lengthTagOf p])

end Cook

namespace Cook

/-- Keep a tag when its detector fired. -/
def pickTag (tb : TagKind × Bool) : Option TagKind :=
  if tb.2 then some tb.1 else none

/-- The detector catalog in cook's own fixed evaluation order (the source's
append sequence, cook.py lines 26-84), between the mate tag and the length
tag, paired with each detector's verdict; the hanging-piece verdict `hp` is
the value `hanging_piece` returned.  This order differs from the order in
which the spec's section 4.4 table lists the detectors (`specCatalogOrder`). -/
def tagPairs (p : Puzzle) (hp : Bool) : List (TagKind × Bool) :=
  [("attraction", attraction p), ("deflection", deflection p),
   ("advancedPawn", advanced_pawn p), ("doubleCheck", double_check p),
   ("quietMove", quiet_move p), ("defensiveMove", defensive_move p),
   ("sacrifice", sacrifice p), ("fork", fork p), ("hangingPiece", hp),
   ("trappedPiece", trapped_piece p), ("discoveredAttack", discovered_attack p),
   ("exposedKing", exposed_king p), ("skewer", skewer p),
   ("interference", self_interference p || interference p), ("pin", pin p),
   ("attackingF2F7", attacking_f2_f7 p), ("clearance", clearance p),
   ("enPassant", en_passant p), ("promotion", promotion p),
   ("capturingDefender", capturing_defender p)]

/-- The middle section of cook's output: the tags whose detectors fired, in
cook's evaluation order. -/
def tagsMiddle (p : Puzzle) (hp : Bool) : List TagKind :=
  (tagPairs p hp).filterMap pickTag

/-- The catalog tag names, in cook's evaluation order. -/
def middleNames : List TagKind :=
  ["attraction", "deflection", "advancedPawn", "doubleCheck", "quietMove",
   "defensiveMove", "sacrifice", "fork", "hangingPiece", "trappedPiece",
   "discoveredAttack", "exposedKing", "skewer", "interference", "pin",
   "attackingF2F7", "clearance", "enPassant", "promotion", "capturingDefender"]

/-- The mate tag names. -/
def mateNames : List TagKind := ["mateIn1", "mateIn2", "mateIn3", "mateIn4", "mateIn5+"]

/-- The length-category tag names. -/
def lengthNames : List TagKind := ["oneMove", "short", "long", "veryLong"]

/-- Well-formedness of a puzzle (spec sections 3 and 7): a mainline of at
least two plies that alternates strictly between the sides starting with the
opponent of pov, in which every ply's board has a piece on its own move's
destination, no position before the final one is checkmate, and the final
position is terminal (checkmate, or no legal move). -/
def WellFormed (p : Puzzle) : Prop :=
  2 ≤ p.mainline.length ∧
  p.root.turn = !p.pov ∧
  (∀ i, i < p.mainline.length →
    (nodeAt p i).board.turn = (if i % 2 = 0 then p.pov else !p.pov)) ∧
  (∀ i < p.mainline.length - 1, (nodeAt p i).board.isCheckmate = false) ∧
  (∀ i, i < p.mainline.length →
    ((nodeAt p i).board.pieceAt (nodeAt p i).move.toSq).isSome = true) ∧
  ((finalBoard p).isCheckmate = true ∨ (finalBoard p).legalMoveCount = 0)

instance wellFormedDecidable (p : Puzzle) : Decidable (WellFormed p) := by
  unfold WellFormed
  infer_instance

/-- The fork condition quantified over all pov moves, the last included: the
reading of claim C6 before amendment. -/
def forkClaimedAll (p : Puzzle) : Bool :=
  (povIdx p).any (fun i =>
    moved_piece_type (nodeAt p i) != some KING &&
    !(nodeAt p i).board.isCheckmate && decide (1 < forkCount p i))

/-- The guards of the quiet-move loop: a pov move, not the puzzle's last move,
neither side in check, no capture. -/
def quietFilter (p : Puzzle) (i : Nat) : Bool :=
  (nodeAt p i).board.turn != p.pov && i != p.mainline.length - 1 &&
  (nodeAt p i).board.checkers.isEmpty && (parentBoardAt p i).checkers.isEmpty &&
  !(is_capture p i)

/-- The claim's reading of the quiet-move rule before amendment: the first pov
non-last move decides, whatever its guards. -/
def quietMoveClaimed (p : Puzzle) : Bool :=
  match (List.range p.mainline.length).find? (fun i =>
      (nodeAt p i).board.turn != p.pov && i != p.mainline.length - 1) with
  | some i =>
    (nodeAt p i).board.checkers.isEmpty && (parentBoardAt p i).checkers.isEmpty &&
    !(is_capture p i) &&
    (attacked_opponent_pieces (nodeAt p i).board (nodeAt p i).move.toSq p.pov).isEmpty
  | none => false

/-- The en-passant signature quantified over the whole mainline, opponent
moves included: the reading of claim C8 before amendment. -/
def enPassantClaimedAll (p : Puzzle) : Bool :=
  (List.range p.mainline.length).any (epCond p)

/-- A board with the given pieces, the given side to move, no checks, no
checkmate, no attacks, kings on e1/e8, two legal moves, and every opaque
predicate false: the base the concrete test positions extend. -/
def mkBoard (pieces : List (Nat × Piece)) (turnB : Bool) : Board where
  pieceAt := fun sq => (pieces.find? (fun sp => sp.1 == sq)).map Prod.snd
  turn := turnB
  checkers := []
  isCheckmate := false
  attackers := fun _ _ => []
  attacks := fun _ => []
  pinRay := fun _ _ => none
  king := fun c => if c then 4 else 60
  legalMoveCount := 2
  isCapture := fun _ => false
  isHanging := fun _ _ => false
  isTrapped := fun _ => false
  isInBadSpot := fun _ => false

/-- White king piece. -/
def wkP : Piece := ⟨KING, true⟩
/-- Black king piece. -/
def bkP : Piece := ⟨KING, false⟩
/-- White queen piece. -/
def wqP : Piece := ⟨QUEEN, true⟩
/-- Black queen piece. -/
def bqP : Piece := ⟨QUEEN, false⟩
/-- White rook piece. -/
def wrP : Piece := ⟨ROOK, true⟩
/-- Black rook piece. -/
def brP : Piece := ⟨ROOK, false⟩
/-- White bishop piece. -/
def wbP : Piece := ⟨BISHOP, true⟩
/-- Black bishop piece. -/
def bbP : Piece := ⟨BISHOP, false⟩
/-- White knight piece. -/
def wnP : Piece := ⟨KNIGHT, true⟩
/-- Black knight piece. -/
def bnP : Piece := ⟨KNIGHT, false⟩
/-- White pawn piece. -/
def wpP : Piece := ⟨PAWN, true⟩
/-- Black pawn piece. -/
def bpP : Piece := ⟨PAWN, false⟩

/-- Mate in one: Black retreats the king, White mates with the queen.  A
two-ply well-formed puzzle whose final position is checkmate. -/
def P3W : Puzzle where
  root := mkBoard [(60, bkP), (11, wqP), (4, wkP)] false
  mainline :=
    [⟨⟨60, 59, none⟩,
      { mkBoard [(59, bkP), (11, wqP), (4, wkP)] true with
          king := fun c => if c then 4 else 59 }⟩,
     ⟨⟨11, 63, none⟩,
      { mkBoard [(59, bkP), (63, wqP), (4, wkP)] false with
          isCheckmate := true, checkers := [63],
          king := fun c => if c then 4 else 59 }⟩]
  pov := true

/-- A three-ply well-formed puzzle on which the hanging-piece guards hold:
Black retreats the king while leaving a knight hanging, White's bishop takes
it, and Black's queen mates in reply.  `hanging_piece` then reads ply 3 of a
3-ply mainline. -/
def P4 : Puzzle where
  root := mkBoard [(60, bkP), (4, wkP), (42, bnP), (33, wbP), (25, bqP)] false
  mainline :=
    [⟨⟨60, 59, none⟩,
      { mkBoard [(59, bkP), (4, wkP), (42, bnP), (33, wbP), (25, bqP)] true with
          isHanging := fun pc sq => pc == bnP && sq == 42,
          king := fun c => if c then 4 else 59 }⟩,
     ⟨⟨33, 42, none⟩,
      { mkBoard [(59, bkP), (4, wkP), (42, wbP), (25, bqP)] false with
          king := fun c => if c then 4 else 59 }⟩,
     ⟨⟨25, 17, none⟩,
      { mkBoard [(59, bkP), (4, wkP), (42, wbP), (17, bqP)] true with
          isCheckmate := true, checkers := [17],
          king := fun c => if c then 4 else 59 }⟩]
  pov := true

/-- A four-ply well-formed puzzle whose only forking pov move is the last one:
White's final knight move attacks the opponent's rook and queen, both
higher-valued, without checkmate (the final position is terminal by
stalemate). -/
def CX6 : Puzzle where
  root := mkBoard [(60, bkP), (4, wkP), (57, bnP), (6, wnP), (38, brP), (52, bqP)] false
  mainline :=
    [⟨⟨57, 42, none⟩,
      mkBoard [(60, bkP), (4, wkP), (42, bnP), (6, wnP), (38, brP), (52, bqP)] true⟩,
     ⟨⟨4, 3, none⟩,
      { mkBoard [(60, bkP), (3, wkP), (42, bnP), (6, wnP), (38, brP), (52, bqP)] false with
          king := fun c => if c then 3 else 60 }⟩,
     ⟨⟨60, 59, none⟩,
      { mkBoard [(59, bkP), (3, wkP), (42, bnP), (6, wnP), (38, brP), (52, bqP)] true with
          king := fun c => if c then 3 else 59 }⟩,
     ⟨⟨6, 21, none⟩,
      { mkBoard [(59, bkP), (3, wkP), (42, bnP), (21, wnP), (38, brP), (52, bqP)] false with
          attacks := fun sq => if sq == 21 then [38, 52] else [],
          legalMoveCount := 0,
          king := fun c => if c then 3 else 59 }⟩]
  pov := true

/-- A four-ply well-formed puzzle whose first pov move is a knight move
attacking the opponent's rook and queen: a fork on a non-last pov move. -/
def W6 : Puzzle where
  root := mkBoard [(60, bkP), (4, wkP), (6, wnP), (38, brP), (52, bqP)] false
  mainline :=
    [⟨⟨60, 59, none⟩,
      { mkBoard [(59, bkP), (4, wkP), (6, wnP), (38, brP), (52, bqP)] true with
          king := fun c => if c then 4 else 59 }⟩,
     ⟨⟨6, 21, none⟩,
      { mkBoard [(59, bkP), (4, wkP), (21, wnP), (38, brP), (52, bqP)] false with
          attacks := fun sq => if sq == 21 then [38, 52] else [],
          king := fun c => if c then 4 else 59 }⟩,
     ⟨⟨59, 60, none⟩,
      mkBoard [(60, bkP), (4, wkP), (21, wnP), (38, brP), (52, bqP)] true⟩,
     ⟨⟨4, 3, none⟩,
      { mkBoard [(60, bkP), (3, wkP), (21, wnP), (38, brP), (52, bqP)] false with
          legalMoveCount := 0,
          king := fun c => if c then 3 else 60 }⟩]
  pov := true

/-- A six-ply well-formed puzzle whose first pov move gives check (so the
quiet-move loop skips it) while the second pov move is quiet. -/
def CX7 : Puzzle where
  root := mkBoard [(60, bkP), (4, wkP), (0, wrP)] false
  mainline :=
    [⟨⟨60, 59, none⟩,
      { mkBoard [(59, bkP), (4, wkP), (0, wrP)] true with
          king := fun c => if c then 4 else 59 }⟩,
     ⟨⟨0, 8, none⟩,
      { mkBoard [(59, bkP), (4, wkP), (8, wrP)] false with
          checkers := [8],
          king := fun c => if c then 4 else 59 }⟩,
     ⟨⟨59, 60, none⟩,
      mkBoard [(60, bkP), (4, wkP), (8, wrP)] true⟩,
     ⟨⟨8, 16, none⟩,
      mkBoard [(60, bkP), (4, wkP), (16, wrP)] false⟩,
     ⟨⟨60, 59, none⟩,
      { mkBoard [(59, bkP), (4, wkP), (16, wrP)] true with
          king := fun c => if c then 4 else 59 }⟩,
     ⟨⟨4, 3, none⟩,
      { mkBoard [(59, bkP), (3, wkP), (16, wrP)] false with
          legalMoveCount := 0,
          king := fun c => if c then 3 else 59 }⟩]
  pov := true

/-- A two-ply well-formed puzzle whose opponent setup move is an en-passant
capture (black pawn b4 takes a3, changing file onto an empty square); the pov
move is a quiet king move. -/
def CX8 : Puzzle where
  root :=
    { mkBoard [(25, bpP), (4, wkP), (60, bkP), (52, bpP)] false with
        isCapture := fun m => m == ⟨25, 16, none⟩ }
  mainline :=
    [⟨⟨25, 16, none⟩,
      mkBoard [(16, bpP), (4, wkP), (60, bkP), (52, bpP)] true⟩,
     ⟨⟨4, 3, none⟩,
      { mkBoard [(16, bpP), (3, wkP), (60, bkP), (52, bpP)] false with
          legalMoveCount := 0,
          king := fun c => if c then 3 else 60 }⟩]
  pov := true

/-- A two-ply well-formed puzzle whose pov move is an en-passant capture
(white pawn b5 takes c6 after black's c7-c5). -/
def W8 : Puzzle where
  root := mkBoard [(50, bpP), (33, wpP), (4, wkP), (60, bkP), (52, bpP)] false
  mainline :=
    [⟨⟨50, 34, none⟩,
      mkBoard [(34, bpP), (33, wpP), (4, wkP), (60, bkP), (52, bpP)] true⟩,
     ⟨⟨33, 42, none⟩,
      { mkBoard [(42, wpP), (4, wkP), (60, bkP), (52, bpP)] false with
          legalMoveCount := 0 }⟩]
  pov := true

/-- A four-ply well-formed puzzle on which the self-interference detector
fires: Black's knight move to a2 blocks the a-file rook's defence of the
bishop on a1, which White's queen then captures. -/
def P9 : Puzzle where
  root := mkBoard
    [(57, bnP), (18, bnP), (0, bbP), (16, brP), (9, wqP), (17, wpP),
     (4, wkP), (60, bkP), (52, bpP)] false
  mainline :=
    [⟨⟨57, 42, none⟩,
      mkBoard [(42, bnP), (18, bnP), (0, bbP), (16, brP), (9, wqP), (17, wpP),
               (4, wkP), (60, bkP), (52, bpP)] true⟩,
     ⟨⟨17, 25, none⟩,
      { mkBoard [(42, bnP), (18, bnP), (0, bbP), (16, brP), (9, wqP), (25, wpP),
                 (4, wkP), (60, bkP), (52, bpP)] false with
          attackers := fun c sq => if c == false && sq == 0 then [16] else [] }⟩,
     ⟨⟨18, 8, none⟩,
      { mkBoard [(42, bnP), (8, bnP), (0, bbP), (16, brP), (9, wqP), (25, wpP),
                 (4, wkP), (60, bkP), (52, bpP)] true with
          isHanging := fun pc sq => pc == bbP && sq == 0,
          isCapture := fun m => m == ⟨9, 0, none⟩ }⟩,
     ⟨⟨9, 0, none⟩,
      { mkBoard [(42, bnP), (8, bnP), (0, wqP), (16, brP), (25, wpP),
                 (4, wkP), (60, bkP), (52, bpP)] false with
          legalMoveCount := 0 }⟩]
  pov := true

/-- Modelled from the spec: the order in which the section 4.4 catalog table
lists the detectors between mate_in and the length tags, each row named by
the tag its detector emits (the self_interference and interference rows both
emit the interference tag; the discoveredCheck row is kept under its own
name).  Claim C1 reads the output's relative order against this listing. -/
def specCatalogOrder : List TagKind :=
  ["doubleCheck", "sacrifice", "fork", "hangingPiece", "trappedPiece",
   "discoveredAttack", "discoveredCheck", "quietMove", "defensiveMove",
   "attraction", "deflection", "exposedKing", "skewer", "interference",
   "pin", "attackingF2F7", "clearance", "enPassant", "promotion",
   "capturingDefender"]

/-- A four-ply well-formed puzzle firing both the quiet-move and the sacrifice
detectors: Black retreats the king, White plays a quiet rook move, Black's
bishop captures the rook, White replies with a king move, leaving pov two
points below the initial balance. -/
def CX1 : Puzzle where
  root := mkBoard [(60, bkP), (4, wkP), (0, wrP), (17, bbP)] false
  mainline :=
    [⟨⟨60, 59, none⟩,
      { mkBoard [(59, bkP), (4, wkP), (0, wrP), (17, bbP)] true with
          king := fun c => if c then 4 else 59 }⟩,
     ⟨⟨0, 8, none⟩,
      { mkBoard [(59, bkP), (4, wkP), (8, wrP), (17, bbP)] false with
          isCapture := fun m => m == ⟨17, 8, none⟩,
          king := fun c => if c then 4 else 59 }⟩,
     ⟨⟨17, 8, none⟩,
      { mkBoard [(59, bkP), (4, wkP), (8, bbP)] true with
          king := fun c => if c then 4 else 59 }⟩,
     ⟨⟨4, 3, none⟩,
      { mkBoard [(59, bkP), (3, wkP), (8, bbP)] false with
          legalMoveCount := 0,
          king := fun c => if c then 3 else 59 }⟩]
  pov := true

lemma filterMap_pickTag_cons (t : TagKind) (b : Bool) (rest : List (TagKind × Bool)) :
    List.filterMap pickTag ((t, b) :: rest) =
      (if b then [t] else []) ++ List.filterMap pickTag rest := by
  cases b <;> simp [pickTag]

lemma mem_filterMap_pickTag (l : List (TagKind × Bool)) (t : TagKind) :
    t ∈ l.filterMap pickTag ↔ (t, true) ∈ l := by
  rw [List.mem_filterMap]
  constructor
  · rintro ⟨⟨t2, b⟩, hm, he⟩
    cases b
    · simp [pickTag] at he
    · simp [pickTag] at he
      exact he ▸ hm
  · intro h
    exact ⟨(t, true), h, rfl⟩

lemma nodup_filterMap_pickTag :
    ∀ l : List (TagKind × Bool), (l.map Prod.fst).Nodup → (l.filterMap pickTag).Nodup := by
  intro l
  induction l with
  | nil => intro _; simp
  | cons hd tl ih =>
    rcases hd with ⟨t, b⟩
    intro h
    rw [List.map_cons, List.nodup_cons] at h
    cases b
    · simpa [pickTag] using ih h.2
    · have hstep : List.filterMap pickTag ((t, true) :: tl) = t :: List.filterMap pickTag tl := by
        simp [pickTag]
      rw [hstep, List.nodup_cons]
      refine ⟨fun hmem => ?_, ih h.2⟩
      exact h.1 (List.mem_map_of_mem Prod.fst ((mem_filterMap_pickTag tl t).1 hmem))

lemma map_fst_tagPairs (p : Puzzle) (hp : Bool) :
    (tagPairs p hp).map Prod.fst = middleNames := rfl

lemma mem_tagsMiddle (p : Puzzle) (hp : Bool) (t : TagKind) :
    t ∈ tagsMiddle p hp ↔ (t, true) ∈ tagPairs p hp :=
  mem_filterMap_pickTag _ _

lemma mem_middleNames_of_mem_tagsMiddle (p : Puzzle) (hp : Bool) (t : TagKind)
    (h : t ∈ tagsMiddle p hp) : t ∈ middleNames := by
  rw [← map_fst_tagPairs p hp]
  exact List.mem_map_of_mem Prod.fst ((mem_tagsMiddle p hp t).1 h)

lemma tagsMiddle_nodup (p : Puzzle) (hp : Bool) : (tagsMiddle p hp).Nodup := by
  refine nodup_filterMap_pickTag _ ?_
  rw [map_fst_tagPairs]
  decide

/-- The driver's output decomposes as the optional mate tag, then the tags of
the detectors that fired in cook's evaluation order, then the length tag. -/
lemma cook_decomp (p : Puzzle) :
    cook p = (hanging_piece p).map
      (fun hp => (mate_in p).toList ++ tagsMiddle p hp ++ [lengthTagOf p]) := by
  unfold cook
  cases hanging_piece p with
  | none => rfl
  | some hp =>
    simp only [Option.map_some]
    simp [tagsMiddle, tagPairs, filterMap_pickTag_cons, List.append_assoc]

lemma mate_in_mem (p : Puzzle) (t : TagKind) (h : mate_in p = some t) :
    t ∈ mateNames := by
  simp only [mate_in] at h
  split at h
  · exact absurd h (by simp)
  · split at h
    · simp only [Option.some.injEq] at h; subst h; decide
    · split at h
      · simp only [Option.some.injEq] at h; subst h; decide
      · split at h
        · simp only [Option.some.injEq] at h; subst h; decide
        · split at h
          · simp only [Option.some.injEq] at h; subst h; decide
          · simp only [Option.some.injEq] at h; subst h; decide

lemma lengthTagOf_mem (p : Puzzle) : lengthTagOf p ∈ lengthNames := by
  unfold lengthTagOf
  split
  · decide
  · split
    · decide
    · split
      · decide
      · decide

end Cook

namespace Cook

lemma mateNames_not_length : ∀ t ∈ mateNames, t ∉ lengthNames := by decide

lemma middleNames_not_length : ∀ t ∈ middleNames, t ∉ lengthNames := by decide

lemma middleNames_not_mate : ∀ t ∈ middleNames, t ∉ mateNames := by decide

lemma lengthNames_not_mate : ∀ t ∈ lengthNames, t ∉ mateNames := by decide

lemma mateNames_not_middle : ∀ t ∈ mateNames, t ∉ middleNames := by decide

lemma lengthNames_not_middle : ∀ t ∈ lengthNames, t ∉ middleNames := by decide

lemma mateNames_nodup : mateNames.Nodup := by decide

/-- C1 (amended): for every puzzle on which `cook` returns, the output is
exactly the optional mate tag first, then the other motif tags in cook's own
fixed evaluation order (`tagPairs` lists the detectors in the source's append
sequence and `tagsMiddle` keeps, in that order, the tags whose detectors
fired), and the length-category tag as the last element.  That evaluation
order is not the order of the spec's section 4.4 table
(`cook_spec_catalog_order_counterexample`). -/
theorem cook_tag_order (p : Puzzle) :
    cook p = (hanging_piece p).map
      (fun hp => (mate_in p).toList ++ tagsMiddle p hp ++ [lengthTagOf p]) :=
  cook_decomp p

/-- C1 counterexample: on the well-formed puzzle `CX1` cook emits the
quietMove tag before the sacrifice tag, although the spec's section 4.4 table
lists the sacrifice detector before the quiet-move detector — the output's
relative order is cook's evaluation order, not the section 4.4 listing. -/
theorem cook_spec_catalog_order_counterexample :
    WellFormed CX1 ∧ cook CX1 = some ["quietMove", "sacrifice", "short"] ∧
    (["quietMove", "sacrifice", "short"] : List TagKind).indexOf "quietMove" <
      (["quietMove", "sacrifice", "short"] : List TagKind).indexOf "sacrifice" ∧
    specCatalogOrder.indexOf "sacrifice" < specCatalogOrder.indexOf "quietMove" :=
  ⟨by decide, by decide, by decide, by decide⟩

/-- C2: every tag list `cook` returns contains exactly one length-category
tag, the one determined by the mainline length: 2 gives oneMove, 4 gives
short, at least 8 gives veryLong, anything else gives long. -/
theorem cook_length_tag_exclusive (p : Puzzle) (l : List TagKind)
    (h : cook p = some l) :
    l.filter (fun t => decide (t ∈ lengthNames)) =
      [if p.mainline.length = 2 then "oneMove"
       else if p.mainline.length = 4 then "short"
       else if 8 ≤ p.mainline.length then "veryLong"
       else "long"] := by
  rw [cook_decomp] at h
  cases hh : hanging_piece p with
  | none => rw [hh] at h; exact absurd h (by simp)
  | some hp =>
    rw [hh] at h
    simp only [Option.map_some', Option.some.injEq] at h
    subst h
    show _ = [lengthTagOf p]
    rw [List.filter_append, List.filter_append]
    have h1 : ((mate_in p).toList).filter (fun t => decide (t ∈ lengthNames)) = [] := by
      cases hm : mate_in p with
      | none => rfl
      | some t =>
        have hnl := mateNames_not_length t (mate_in_mem p t hm)
        simp [List.filter, hnl]
    have h2 : (tagsMiddle p hp).filter (fun t => decide (t ∈ lengthNames)) = [] := by
      refine List.filter_eq_nil_iff.mpr (fun t ht => ?_)
      have hnl := middleNames_not_length t (mem_middleNames_of_mem_tagsMiddle p hp t ht)
      simp [hnl]
    have h3 : ([lengthTagOf p]).filter (fun t => decide (t ∈ lengthNames)) = [lengthTagOf p] := by
      have hmem := lengthTagOf_mem p
      simp [List.filter, hmem]
    rw [h1, h2, h3]
    rfl

/-- C3: `mate_in` returns a tag exactly when the final position is checkmate;
in that case, with k the floor of the mainline length divided by 2, it returns
mateIn1..mateIn4 for k = 1..4 and mateIn5+ for k at least 5; and when the
final position is not checkmate, no tag of `cook`'s output is a mate tag. -/
theorem mate_in_consistency (p : Puzzle) :
    ((mate_in p).isSome = true ↔ (finalBoard p).isCheckmate = true) ∧
    ((finalBoard p).isCheckmate = true →
      ((p.mainline.length / 2 = 1 → mate_in p = some "mateIn1") ∧
       (p.mainline.length / 2 = 2 → mate_in p = some "mateIn2") ∧
       (p.mainline.length / 2 = 3 → mate_in p = some "mateIn3") ∧
       (p.mainline.length / 2 = 4 → mate_in p = some "mateIn4") ∧
       (5 ≤ p.mainline.length / 2 → mate_in p = some "mateIn5+"))) ∧
    ((finalBoard p).isCheckmate = false →
      ∀ l, cook p = some l → ∀ t ∈ l, t ∉ mateNames) := by
  refine ⟨?_, ?_, ?_⟩
  · constructor
    · intro hs
      by_contra hc
      rw [Bool.not_eq_true] at hc
      simp [mate_in, hc] at hs
    · intro hc
      simp only [mate_in, hc, Bool.not_true, Bool.false_eq_true, if_false]
      split
      · simp
      · split
        · simp
        · split
          · simp
          · split
            · simp
            · simp
  · intro hc
    refine ⟨fun h1 => ?_, fun h2 => ?_, fun h3 => ?_, fun h4 => ?_, fun h5 => ?_⟩
    · simp [mate_in, hc, h1]
    · simp [mate_in, hc, h2]
    · simp [mate_in, hc, h3]
    · simp [mate_in, hc, h4]
    · have n1 : ¬ p.mainline.length / 2 = 1 := by omega
      have n2 : ¬ p.mainline.length / 2 = 2 := by omega
      have n3 : ¬ p.mainline.length / 2 = 3 := by omega
      have n4 : ¬ p.mainline.length / 2 = 4 := by omega
      simp [mate_in, hc, n1, n2, n3, n4]
  · intro hc l h t ht
    have hnone : mate_in p = none := by simp [mate_in, hc]
    rw [cook_decomp] at h
    cases hh : hanging_piece p with
    | none => rw [hh] at h; exact absurd h (by simp)
    | some hp =>
      rw [hh] at h
      simp only [Option.map_some', Option.some.injEq] at h
      subst h
      rw [hnone] at ht
      simp only [Option.toList_none, List.nil_append] at ht
      rcases List.mem_append.mp ht with hm | hm
      · exact middleNames_not_mate t (mem_middleNames_of_mem_tagsMiddle p hp t hm)
      · have : t = lengthTagOf p := by simpa using hm
        subst this
        exact lengthNames_not_mate _ (lengthTagOf_mem p)

end Cook

namespace Cook

lemma mate_of_mem_toList (p : Puzzle) (t : TagKind) (h : t ∈ (mate_in p).toList) :
    t ∈ mateNames := by
  cases hm : mate_in p with
  | none => rw [hm] at h; simp at h
  | some s =>
    rw [hm] at h
    simp only [Option.toList_some, List.mem_singleton] at h
    rw [h]
    exact mate_in_mem p s hm

lemma toList_mate_nodup (p : Puzzle) : ((mate_in p).toList).Nodup := by
  cases mate_in p <;> simp

lemma fork_of_mem_tagPairs (p : Puzzle) (hp : Bool)
    (h : (("fork" : TagKind), true) ∈ tagPairs p hp) : fork p = true := by
  simp only [tagPairs, List.mem_cons, Prod.mk.injEq, List.not_mem_nil, or_false] at h
  rcases h with h|h|h|h|h|h|h|h|h|h|h|h|h|h|h|h|h|h|h|h
  all_goals first
    | exact h.2.symm
    | exact absurd h.1 (by decide)

lemma pin_of_mem_tagPairs (p : Puzzle) (hp : Bool)
    (h : (("pin" : TagKind), true) ∈ tagPairs p hp) : pin p = true := by
  simp only [tagPairs, List.mem_cons, Prod.mk.injEq, List.not_mem_nil, or_false] at h
  rcases h with h|h|h|h|h|h|h|h|h|h|h|h|h|h|h|h|h|h|h|h
  all_goals first
    | exact h.2.symm
    | exact absurd h.1 (by decide)

/-- C9: every tag list `cook` returns is duplicate-free; in particular, even
when the self-interference or the interference detector (or both) fire, the
interference tag occurs exactly once. -/
theorem cook_no_duplicate_tags (p : Puzzle) (l : List TagKind) (h : cook p = some l) :
    l.Nodup ∧
    ((self_interference p || interference p) = true → l.count "interference" = 1) := by
  rw [cook_decomp] at h
  cases hh : hanging_piece p with
  | none => rw [hh] at h; exact absurd h (by simp)
  | some hp =>
    rw [hh] at h
    simp only [Option.map_some', Option.some.injEq] at h
    subst h
    have dB : (tagsMiddle p hp).Nodup := tagsMiddle_nodup p hp
    have djAB : ((mate_in p).toList).Disjoint (tagsMiddle p hp) := by
      intro t htA htB
      exact mateNames_not_middle t (mate_of_mem_toList p t htA)
        (mem_middleNames_of_mem_tagsMiddle p hp t htB)
    have djC : ((mate_in p).toList ++ tagsMiddle p hp).Disjoint [lengthTagOf p] := by
      intro t htAB htC
      have htl : t = lengthTagOf p := by simpa using htC
      subst htl
      rcases List.mem_append.mp htAB with hm | hm
      · exact lengthNames_not_mate _ (lengthTagOf_mem p) (mate_of_mem_toList p _ hm)
      · exact lengthNames_not_middle _ (lengthTagOf_mem p)
          (mem_middleNames_of_mem_tagsMiddle p hp _ hm)
    constructor
    · exact ((toList_mate_nodup p).append dB djAB).append (List.nodup_singleton _) djC
    · intro h2
      rw [List.count_append, List.count_append]
      have cA : ((mate_in p).toList).count "interference" = 0 := by
        rw [List.count_eq_zero]
        intro hmem
        exact mateNames_not_middle _ (mate_of_mem_toList p _ hmem) (by decide)
      have cC : ([lengthTagOf p]).count "interference" = 0 := by
        rw [List.count_eq_zero]
        intro hmem
        have : ("interference" : TagKind) = lengthTagOf p := by simpa using hmem
        exact lengthNames_not_middle _ (this ▸ lengthTagOf_mem p) (by decide)
      have hmem : (("interference" : TagKind), self_interference p || interference p) ∈
          tagPairs p hp := by simp [tagPairs]
      rw [h2] at hmem
      have hmid : ("interference" : TagKind) ∈ tagsMiddle p hp :=
        (mem_tagsMiddle p hp _).2 hmem
      have cB : (tagsMiddle p hp).count "interference" = 1 :=
        List.count_eq_one_of_mem dB hmid
      rw [cA, cB, cC]

/-- C10: on a puzzle whose mainline has length 2 or 3 (its only pov move is
its last), the fork and pin detectors report nothing — their scan over
`mainline[1::2][:-1]` is empty — and no output of `cook` contains the fork or
pin tag. -/
theorem fork_pin_skip_last (p : Puzzle)
    (hlen : p.mainline.length = 2 ∨ p.mainline.length = 3) :
    fork p = false ∧ pin p = false ∧
    ∀ l, cook p = some l → ("fork" : TagKind) ∉ l ∧ ("pin" : TagKind) ∉ l := by
  have hidx : (povIdx p).dropLast = [] := by
    unfold povIdx
    rcases hlen with h | h <;> rw [h] <;> decide
  have hf : fork p = false := by unfold fork; rw [hidx]; rfl
  have hpn : pin p = false := by unfold pin; rw [hidx]; rfl
  refine ⟨hf, hpn, fun l h => ?_⟩
  rw [cook_decomp] at h
  cases hh : hanging_piece p with
  | none => rw [hh] at h; exact absurd h (by simp)
  | some hp =>
    rw [hh] at h
    simp only [Option.map_some', Option.some.injEq] at h
    subst h
    constructor
    · intro hmem
      rcases List.mem_append.mp hmem with hAB | hC
      · rcases List.mem_append.mp hAB with hA | hB
        · exact absurd (mate_of_mem_toList p _ hA) (by decide)
        · have := fork_of_mem_tagPairs p hp ((mem_tagsMiddle p hp _).1 hB)
          rw [hf] at this
          exact absurd this (by decide)
      · have hteq : ("fork" : TagKind) = lengthTagOf p := by simpa using hC
        exact absurd (hteq ▸ lengthTagOf_mem p) (by decide)
    · intro hmem
      rcases List.mem_append.mp hmem with hAB | hC
      · rcases List.mem_append.mp hAB with hA | hB
        · exact absurd (mate_of_mem_toList p _ hA) (by decide)
        · have := pin_of_mem_tagPairs p hp ((mem_tagsMiddle p hp _).1 hB)
          rw [hpn] at this
          exact absurd this (by decide)
      · have hteq : ("pin" : TagKind) = lengthTagOf p := by simpa using hC
        exact absurd (hteq ▸ lengthTagOf_mem p) (by decide)

/-- C5: `sacrifice` fires exactly when pov's material balance, measured after
moving against the balance of the initial ply (`diffs[0]`, the position from
which pov starts), is at least 2 lower at some pov-move ply after pov's first
move — at such a ply the balance has, in particular, not recovered to the
initial value. -/
theorem sacrifice_iff (p : Puzzle) :
    sacrifice p = true ↔
      ∃ d ∈ (slice12 (p.mainline.map (fun n => material_diff n.board p.pov))).drop 1,
        d - (p.mainline.map (fun n => material_diff n.board p.pov)).headD 0 ≤ -2 ∧
        d < (p.mainline.map (fun n => material_diff n.board p.pov)).headD 0 := by
  simp only [sacrifice, List.any_eq_true, decide_eq_true_eq]
  constructor
  · rintro ⟨d, hd, hle⟩
    exact ⟨d, hd, hle, by omega⟩
  · rintro ⟨d, hd, hle, -⟩
    exact ⟨d, hd, hle⟩

lemma forkGo_iff (p : Puzzle) :
    ∀ L : List Nat, (∀ i ∈ L, (nodeAt p i).board.isCheckmate = false) →
      (forkGo p L = true ↔
        ∃ i ∈ L, moved_piece_type (nodeAt p i) ≠ some KING ∧
          (nodeAt p i).board.isCheckmate = false ∧ 1 < forkCount p i) := by
  intro L
  induction L with
  | nil => intro _; simp [forkGo]
  | cons i rest ih =>
    intro h
    have hmate : (nodeAt p i).board.isCheckmate = false := h i (List.mem_cons_self i rest)
    have hrest := ih (fun j hj => h j (List.mem_cons_of_mem i hj))
    by_cases hk : moved_piece_type (nodeAt p i) = some KING
    · have hstep : forkGo p (i :: rest) = forkGo p rest := by
        simp [forkGo, hk]
      rw [hstep, hrest]
      constructor
      · rintro ⟨j, hj, hc⟩
        exact ⟨j, List.mem_cons_of_mem i hj, hc⟩
      · rintro ⟨j, hj, hc⟩
        rcases List.mem_cons.mp hj with rfl | hj2
        · exact absurd hk hc.1
        · exact ⟨j, hj2, hc⟩
    · by_cases hcnt : 1 < forkCount p i
      · have hstep : forkGo p (i :: rest) = true := by
          simp [forkGo, hk, hmate, hcnt]
        rw [hstep]
        constructor
        · intro _
          exact ⟨i, List.mem_cons_self i rest, hk, hmate, hcnt⟩
        · intro _
          rfl
      · have hstep : forkGo p (i :: rest) = forkGo p rest := by
          simp [forkGo, hk, hmate, hcnt]
        rw [hstep, hrest]
        constructor
        · rintro ⟨j, hj, hc⟩
          exact ⟨j, List.mem_cons_of_mem i hj, hc⟩
        · rintro ⟨j, hj, hc⟩
          rcases List.mem_cons.mp hj with rfl | hj2
          · exact absurd hc.2.2 hcnt
          · exact ⟨j, hj2, hc⟩

end Cook

namespace Cook

/-- C6 (amended): under the well-formedness consequence that no position a
non-final pov move reaches is checkmate, `fork` fires exactly when some pov
move other than the last pov move does not move the king, does not give
checkmate, and attacks at least two opponent non-pawn pieces that are each a
king, higher-valued than the moved piece, or hanging (`forkCount`). -/
theorem fork_nonlast_iff (p : Puzzle)
    (h : ∀ i ∈ (povIdx p).dropLast, (nodeAt p i).board.isCheckmate = false) :
    fork p = true ↔
      ∃ i ∈ (povIdx p).dropLast, moved_piece_type (nodeAt p i) ≠ some KING ∧
        (nodeAt p i).board.isCheckmate = false ∧ 1 < forkCount p i :=
  forkGo_iff p ((povIdx p).dropLast) h

lemma quietGo_eq (p : Puzzle) :
    ∀ L : List Nat,
      quietGo p L =
        (match L.find? (quietFilter p) with
         | some i =>
           (attacked_opponent_pieces (nodeAt p i).board (nodeAt p i).move.toSq p.pov).isEmpty
         | none => false) := by
  intro L
  induction L with
  | nil => rfl
  | cons i rest ih =>
    cases ha : ((nodeAt p i).board.turn != p.pov) <;>
      cases hb : (i != p.mainline.length - 1) <;>
        cases hc : (nodeAt p i).board.checkers.isEmpty <;>
          cases hd : (parentBoardAt p i).checkers.isEmpty <;>
            cases he : is_capture p i <;>
              simp [quietGo, quietFilter, List.find?_cons, ha, hb, hc, hd, he, ih]

/-- C7 (amended): `quiet_move` is decided by the first pov move, other than the
puzzle's last move, that is played with neither side in check and is not a
capture: it returns true exactly when such a move exists and attacks no
opponent piece from its destination square; earlier pov moves that give or
escape check or capture are skipped, not deciding. -/
theorem quiet_move_first_eligible (p : Puzzle) :
    quiet_move p =
      (match (List.range p.mainline.length).find? (quietFilter p) with
       | some i =>
         (attacked_opponent_pieces (nodeAt p i).board (nodeAt p i).move.toSq p.pov).isEmpty
       | none => false) :=
  quietGo_eq p (List.range p.mainline.length)

/-- C8 (amended): whenever `cook` returns and some pov move of the mainline
carries the en-passant signature — a pawn move changing file onto a
destination square that was empty before the move — the output contains the
enPassant tag. -/
theorem en_passant_pov_tag (p : Puzzle) (l : List TagKind) (h : cook p = some l)
    (h2 : ∃ i ∈ povIdx p, moved_piece_type (nodeAt p i) = some PAWN ∧
        squareFile (nodeAt p i).move.fromSq ≠ squareFile (nodeAt p i).move.toSq ∧
        (parentBoardAt p i).pieceAt (nodeAt p i).move.toSq = none) :
    ("enPassant" : TagKind) ∈ l := by
  have hep : en_passant p = true := by
    rw [en_passant, List.any_eq_true]
    obtain ⟨i, hi, hpawn, hfile, hempty⟩ := h2
    refine ⟨i, hi, ?_⟩
    simp [epCond, hpawn, hfile, hempty]
  rw [cook_decomp] at h
  cases hh : hanging_piece p with
  | none => rw [hh] at h; exact absurd h (by simp)
  | some hp =>
    rw [hh] at h
    simp only [Option.map_some', Option.some.injEq] at h
    subst h
    have hmem : (("enPassant" : TagKind), en_passant p) ∈ tagPairs p hp := by
      simp [tagPairs]
    rw [hep] at hmem
    have hmid : ("enPassant" : TagKind) ∈ tagsMiddle p hp := (mem_tagsMiddle p hp _).2 hmem
    exact List.mem_append.mpr (Or.inl (List.mem_append.mpr (Or.inr hmid)))

end Cook

namespace Cook

end Cook

namespace Cook

/-- C4: on the well-formed three-ply puzzle `P4` the hanging-piece guards all
hold, so `hanging_piece` reads `mainline[3]` of a 3-ply mainline — an
IndexError (embedded as `none`) that propagates out of `cook` — although the
mainline is well-formed and shorter than 4 plies. -/
theorem hanging_piece_index_error :
    WellFormed P4 ∧ P4.mainline.length = 3 ∧ hanging_piece P4 = none ∧ cook P4 = none :=
  ⟨by decide, by decide, by decide, by decide⟩

/-- C6 counterexample: on the well-formed puzzle `CX6` the fork condition
holds at a pov move (the last one), yet `fork` reports no tag — the claim's
quantification over every pov move fails on the code. -/
theorem fork_last_move_counterexample :
    WellFormed CX6 ∧ forkClaimedAll CX6 = true ∧ fork CX6 = false :=
  ⟨by decide, by decide, by decide⟩

/-- C6 witness: on `W6` a non-last pov knight move attacks the opponent's
undefended rook and queen without checkmate, `fork` fires, and cook's output
contains the fork tag. -/
theorem fork_nonlast_iff_witness :
    (∀ i ∈ (povIdx W6).dropLast, (nodeAt W6 i).board.isCheckmate = false) ∧
    fork W6 = true ∧ ("fork" : TagKind) ∈ (cook W6).getD [] :=
  ⟨by decide, (fork_nonlast_iff W6 (by decide)).mpr (by decide), by decide⟩

/-- C7 counterexample: on the well-formed puzzle `CX7` the first pov non-last
move gives check — by the claim, `quiet_move` should return false — yet the
loop skips it and returns true on the second pov move. -/
theorem quiet_move_first_move_counterexample :
    WellFormed CX7 ∧ quiet_move CX7 = true ∧ quietMoveClaimed CX7 = false :=
  ⟨by decide, by decide, by decide⟩

/-- C8 counterexample: on the well-formed puzzle `CX8` a mainline move (the
opponent's) carries the en-passant signature, yet cook's output carries no
enPassant tag — the detector only scans pov moves. -/
theorem en_passant_opponent_counterexample :
    WellFormed CX8 ∧ enPassantClaimedAll CX8 = true ∧
    cook CX8 = some ["advancedPawn", "oneMove"] ∧
    ("enPassant" : TagKind) ∉ (["advancedPawn", "oneMove"] : List TagKind) :=
  ⟨by decide, by decide, by decide, by decide⟩

/-- C8 witness: on `W8` the pov move is an en-passant capture and cook's
output contains the enPassant tag. -/
theorem en_passant_pov_tag_witness :
    cook W8 = some ["advancedPawn", "enPassant", "oneMove"] ∧
    ("enPassant" : TagKind) ∈ (["advancedPawn", "enPassant", "oneMove"] : List TagKind) :=
  ⟨by decide,
   en_passant_pov_tag W8 ["advancedPawn", "enPassant", "oneMove"] (by decide) (by decide)⟩

/-- C2 witness: on the mate-in-one puzzle `P3W` cook returns and its output
holds exactly the oneMove length tag. -/
theorem cook_length_tag_exclusive_witness :
    cook P3W = some ["mateIn1", "oneMove"] ∧
    (["mateIn1", "oneMove"] : List TagKind).filter (fun t => decide (t ∈ lengthNames)) =
      ["oneMove"] :=
  ⟨by decide,
   (cook_length_tag_exclusive P3W ["mateIn1", "oneMove"] (by decide)).trans (by decide)⟩

/-- C3 witness: `P3W` ends in checkmate after two plies (one pov move) and
`mate_in` returns the mateIn1 tag. -/
theorem mate_in_consistency_witness :
    (finalBoard P3W).isCheckmate = true ∧ P3W.mainline.length / 2 = 1 ∧
    mate_in P3W = some "mateIn1" :=
  ⟨by decide, by decide, ((mate_in_consistency P3W).2.1 (by decide)).1 (by decide)⟩

/-- C9 witness: on `P9` the self-interference detector fires and cook's
output is duplicate-free with exactly one interference tag. -/
theorem cook_no_duplicate_tags_witness :
    cook P9 = some ["quietMove", "interference", "short"] ∧
    (["quietMove", "interference", "short"] : List TagKind).Nodup ∧
    (["quietMove", "interference", "short"] : List TagKind).count "interference" = 1 :=
  ⟨by decide,
   (cook_no_duplicate_tags P9 ["quietMove", "interference", "short"] (by decide)).1,
   (cook_no_duplicate_tags P9 ["quietMove", "interference", "short"] (by decide)).2 (by decide)⟩

/-- C10 witness: the one-move puzzle `P3W` gets neither a fork nor a pin tag
although its single pov move is its last. -/
theorem fork_pin_skip_last_witness :
    P3W.mainline.length = 2 ∧ fork P3W = false ∧ pin P3W = false ∧
    (("fork" : TagKind) ∉ (["mateIn1", "oneMove"] : List TagKind) ∧
     ("pin" : TagKind) ∉ (["mateIn1", "oneMove"] : List TagKind)) :=
  ⟨by decide, (fork_pin_skip_last P3W (Or.inl (by decide))).1,
   (fork_pin_skip_last P3W (Or.inl (by decide))).2.1,
   (fork_pin_skip_last P3W (Or.inl (by decide))).2.2 ["mateIn1", "oneMove"] (by decide)⟩

end Cook
